import Mathlib

/-!
Verification of the cache / polling / validation conventions of the
kubiya-solutions-engineering cli-tools repository.

The shell scripts embedded in the tool definitions derive cache keys with
`echo STR | md5sum | cut`, keeping only the digest field; they check cache freshness with
`find FILE -mmin -K`, clean caches with `find DIR -name "*.json" -mmin +N -delete`
(resp. `-mtime +N`), poll sync status in a bounded `for i in $(seq 1 60)` loop,
and validate Python-side tool arguments with `validate_args` / `get_error_message`.
Each of those pieces is embedded below as an executable Lean definition.
-/

namespace CliTools

/-! ## MD5 (the `md5sum` binary invoked by the scripts) -/

/-- Left rotation on 32 bits of a `Nat` below `2 ^ 32`. -/
def rotl32 (x n : Nat) : Nat :=
  ((x <<< n) % 2 ^ 32) ||| (x >>> (32 - n))

/-- Bitwise complement on 32 bits. -/
def not32 (x : Nat) : Nat := x ^^^ (2 ^ 32 - 1)

/-- The MD5 per-round nonlinear function, selected by the round index. -/
def md5F (i b c d : Nat) : Nat :=
  if i < 16 then (b &&& c) ||| (not32 b &&& d)
  else if i < 32 then (d &&& b) ||| (not32 d &&& c)
  else if i < 48 then b ^^^ c ^^^ d
  else c ^^^ (b ||| not32 d)

/-- The MD5 message-word schedule. -/
def md5G (i : Nat) : Nat :=
  if i < 16 then i
  else if i < 32 then (5 * i + 1) % 16
  else if i < 48 then (3 * i + 5) % 16
  else (7 * i) % 16

/-- The 64 MD5 sine-derived constants. -/
def md5K : List Nat :=
  [0xd76aa478, 0xe8c7b756, 0x242070db, 0xc1bdceee,
   0xf57c0faf, 0x4787c62a, 0xa8304613, 0xfd469501,
   0x698098d8, 0x8b44f7af, 0xffff5bb1, 0x895cd7be,
   0x6b901122, 0xfd987193, 0xa679438e, 0x49b40821,
   0xf61e2562, 0xc040b340, 0x265e5a51, 0xe9b6c7aa,
   0xd62f105d, 0x02441453, 0xd8a1e681, 0xe7d3fbc8,
   0x21e1cde6, 0xc33707d6, 0xf4d50d87, 0x455a14ed,
   0xa9e3e905, 0xfcefa3f8, 0x676f02d9, 0x8d2a4c8a,
   0xfffa3942, 0x8771f681, 0x6d9d6122, 0xfde5380c,
   0xa4beea44, 0x4bdecfa9, 0xf6bb4b60, 0xbebfbc70,
   0x289b7ec6, 0xeaa127fa, 0xd4ef3085, 0x04881d05,
   0xd9d4d039, 0xe6db99e5, 0x1fa27cf8, 0xc4ac5665,
   0xf4292244, 0x432aff97, 0xab9423a7, 0xfc93a039,
   0x655b59c3, 0x8f0ccc92, 0xffeff47d, 0x85845dd1,
   0x6fa87e4f, 0xfe2ce6e0, 0xa3014314, 0x4e0811a1,
   0xf7537e82, 0xbd3af235, 0x2ad7d2bb, 0xeb86d391]

/-- The 64 MD5 per-round rotation amounts. -/
def md5S : List Nat :=
  [7, 12, 17, 22, 7, 12, 17, 22, 7, 12, 17, 22, 7, 12, 17, 22,
   5, 9, 14, 20, 5, 9, 14, 20, 5, 9, 14, 20, 5, 9, 14, 20,
   4, 11, 16, 23, 4, 11, 16, 23, 4, 11, 16, 23, 4, 11, 16, 23,
   6, 10, 15, 21, 6, 10, 15, 21, 6, 10, 15, 21, 6, 10, 15, 21]

/-- Running MD5 state: four 32-bit accumulators. -/
structure MD5State where
  a : Nat
  b : Nat
  c : Nat
  d : Nat

/-- One MD5 round, acting on the state with message-word accessor `m`. -/
def md5Step (m : Nat → Nat) (st : MD5State) (i : Nat) : MD5State :=
  let f := (md5F i st.b st.c st.d + st.a + md5K.getD i 0 + m (md5G i)) % 2 ^ 32
  ⟨st.d, (st.b + rotl32 f (md5S.getD i 0)) % 2 ^ 32, st.b, st.c⟩

/-- Process one 64-byte chunk (bytes little-endian per 32-bit word). -/
def md5Chunk (st : MD5State) (chunk : List Nat) : MD5State :=
  let m := fun g =>
    chunk.getD (4 * g) 0 + 256 * chunk.getD (4 * g + 1) 0 +
    65536 * chunk.getD (4 * g + 2) 0 + 16777216 * chunk.getD (4 * g + 3) 0
  let e := (List.range 64).foldl (md5Step m) st
  ⟨(st.a + e.a) % 2 ^ 32, (st.b + e.b) % 2 ^ 32,
   (st.c + e.c) % 2 ^ 32, (st.d + e.d) % 2 ^ 32⟩

/-- Little-endian byte decomposition: `n` bytes of `x`. -/
def bytesLE : Nat → Nat → List Nat
  | 0, _ => []
  | n + 1, x => (x % 256) :: bytesLE n (x / 256)

/-- MD5 padding: a `0x80` byte, zeros to 56 mod 64, then the 64-bit bit length. -/
def md5Pad (msg : List Nat) : List Nat :=
  msg ++ (128 :: List.replicate ((119 - msg.length % 64) % 64) 0)
      ++ bytesLE 8 ((8 * msg.length) % 2 ^ 64)

/-- Fold `md5Chunk` over successive 64-byte chunks; `fuel` counts the chunks. -/
def md5Chunks : Nat → MD5State → List Nat → MD5State
  | 0, st, _ => st
  | fuel + 1, st, bytes => md5Chunks fuel (md5Chunk st (bytes.take 64)) (bytes.drop 64)

/-- The MD5 initial state. -/
def md5Init : MD5State := ⟨0x67452301, 0xefcdab89, 0x98badcfe, 0x10325476⟩

/-- The 16-byte MD5 digest of a byte string. -/
def md5Digest (msg : List Nat) : List Nat :=
  let padded := md5Pad msg
  let st := md5Chunks (padded.length / 64) md5Init padded
  bytesLE 4 st.a ++ bytesLE 4 st.b ++ bytesLE 4 st.c ++ bytesLE 4 st.d

/-- Lower-case hex digit for a nibble, as printed by `md5sum`. -/
def hexDigit (n : Nat) : Char :=
  if n < 10 then Char.ofNat (48 + n) else Char.ofNat (87 + n)

/-- Render a byte list as lower-case hex characters, two per byte. -/
def bytesToHex : List Nat → List Char
  | [] => []
  | b :: rest => hexDigit (b / 16 % 16) :: hexDigit (b % 16) :: bytesToHex rest

/-- Bytes of a string; the key material in the scripts is ASCII. -/
def strBytes (s : String) : List Nat := s.data.map (fun c => c.toNat % 256)

/-- Model of `echo STR | md5sum | cut` keeping the first (digest) field: `echo` appends a newline, `md5sum`
prints the digest in lower-case hex and `cut` keeps the digest field. -/
def echoMd5 (s : String) : String := ⟨bytesToHex (md5Digest (strBytes (s ++ "\n")))⟩

set_option maxRecDepth 100000 in
example : echoMd5 "abc" = "0bee89b07a248e27c83fc3d5951213c1" := by decide

/-! ## Shell environment and cache-key derivation

`argocd_list_applications` (cli.py lines 59-60) computes
the md5sum of the string joining `apps`, LIMIT, OFFSET, project_filter, health_filter, sync_filter and the hour bucket `date +%Y%m%d%H` with underscores
where `LIMIT=${limit:-50}`, `OFFSET=${offset:-0}` and the filters are plain
(possibly unset) variables. -/

/-- A shell environment: tool arguments appear as possibly-unset variables. -/
def Env : Type := String → Option String

/-- Expansion of a plain `${name}`: an unset variable expands to the empty string. -/
def shVar (env : Env) (name : String) : String := (env name).getD ""

/-- Expansion of `${name:-dflt}`: unset or empty expands to the default. -/
def shVarD (env : Env) (name dflt : String) : String :=
  match env name with
  | none => dflt
  | some v => if v = "" then dflt else v

/-- The underscore-joined pre-hash string of `argocd_list_applications`. -/
def appsPreHash (limit offset proj health sync bucket : String) : String :=
  "apps_" ++ limit ++ "_" ++ offset ++ "_" ++ proj ++ "_" ++ health ++ "_" ++ sync ++ "_" ++ bucket

/-- The cache key of `argocd_list_applications`: md5 of the pre-hash string,
with the hour-granularity time bucket from `date +%Y%m%d%H`. -/
def listAppsCacheKey (env : Env) (bucket : String) : String :=
  echoMd5 (appsPreHash (shVarD env "limit" "50") (shVarD env "offset" "0")
    (shVar env "project_filter") (shVar env "health_filter") (shVar env "sync_filter") bucket)

/-- The pre-hash string of `argocd_get_application` (cli.py line 204):
`"app_${app_name}_$(date +%Y%m%d%H%M)"`. -/
def getAppPreHash (appName bucket : String) : String := "app_" ++ appName ++ "_" ++ bucket

/-- The cache key of `argocd_get_application` (minute-granularity bucket). -/
def getAppCacheKey (env : Env) (bucket : String) : String :=
  echoMd5 (getAppPreHash (shVar env "app_name") bucket)

/-! ### Shape of the digest: 32 lower-case hex characters -/

/-- The sixteen characters `md5sum` prints digests with. -/
def hexChars : List Char := "0123456789abcdef".data

theorem bytesLE_length (n x : Nat) : (bytesLE n x).length = n := by
  induction n generalizing x with
  | zero => rfl
  | succ n ih => simp [bytesLE, ih]

theorem bytesToHex_length (bs : List Nat) : (bytesToHex bs).length = 2 * bs.length := by
  induction bs with
  | nil => rfl
  | cons b rest ih => simp [bytesToHex, ih]; ring

theorem md5Digest_length (msg : List Nat) : (md5Digest msg).length = 16 := by
  simp [md5Digest, bytesLE_length]

theorem hexDigit_mem (n : Nat) (h : n < 16) : hexDigit n ∈ hexChars := by
  revert n; decide

theorem bytesToHex_mem (bs : List Nat) : ∀ c ∈ bytesToHex bs, c ∈ hexChars := by
  induction bs with
  | nil => intro c hc; simp [bytesToHex] at hc
  | cons b rest ih =>
    intro c hc
    simp only [bytesToHex, List.mem_cons] at hc
    rcases hc with h | h | h
    · exact h ▸ hexDigit_mem _ (Nat.mod_lt _ (by norm_num))
    · exact h ▸ hexDigit_mem _ (Nat.mod_lt _ (by norm_num))
    · exact ih c h

theorem echoMd5_length (s : String) : (echoMd5 s).length = 32 := by
  show (bytesToHex (md5Digest (strBytes (s ++ "\n")))).length = 32
  rw [bytesToHex_length, md5Digest_length]

theorem echoMd5_hex (s : String) : ∀ c ∈ (echoMd5 s).data, c ∈ hexChars :=
  bytesToHex_mem _

/-- C2: cache-key derivation is deterministic and total. The key is a function
of the operation name, the expanded parameter values (an absent parameter
expands, like `"${project_filter}"` in the shell, to the empty string rather
than being omitted) and the time bucket; whenever those expansions agree the
derived key is the same string, and it is always 32 lower-case hex characters. -/
theorem listAppsCacheKey_deterministic (env env2 : Env) (bucket bucket2 : String)
    (hl : shVarD env "limit" "50" = shVarD env2 "limit" "50")
    (ho : shVarD env "offset" "0" = shVarD env2 "offset" "0")
    (hp : shVar env "project_filter" = shVar env2 "project_filter")
    (hh : shVar env "health_filter" = shVar env2 "health_filter")
    (hs : shVar env "sync_filter" = shVar env2 "sync_filter")
    (hb : bucket = bucket2) :
    listAppsCacheKey env bucket = listAppsCacheKey env2 bucket2 ∧
    (listAppsCacheKey env bucket).length = 32 ∧
    ∀ c ∈ (listAppsCacheKey env bucket).data, c ∈ hexChars := by
  refine ⟨?_, echoMd5_length _, echoMd5_hex _⟩
  unfold listAppsCacheKey
  rw [hl, ho, hp, hh, hs, hb]

/-- An environment with every tool argument unset. -/
def envAllUnset : Env := fun _ => none

/-- An environment passing `project_filter` explicitly as the empty string. -/
def envEmptyFilter : Env := fun n => if n = "project_filter" then some "" else none

/-- Witness for C2: with no filter given at all and with an explicit empty
`project_filter`, the same key is derived, and it has 32 characters. -/
theorem listAppsCacheKey_deterministic_witness :
    listAppsCacheKey envAllUnset "2024060112" = listAppsCacheKey envEmptyFilter "2024060112" ∧
    (listAppsCacheKey envAllUnset "2024060112").length = 32 :=
  ⟨(listAppsCacheKey_deterministic envAllUnset envEmptyFilter "2024060112" "2024060112"
      (by decide) (by decide) (by decide) (by decide) (by decide) rfl).1,
   (listAppsCacheKey_deterministic envAllUnset envEmptyFilter "2024060112" "2024060112"
      (by decide) (by decide) (by decide) (by decide) (by decide) rfl).2.1⟩

/-! ## File-based cache with TTL expiry

The scripts check freshness with
`[ -f "$CACHE_FILE" ] && [ $(find "$CACHE_FILE" -mmin -K | wc -l) -gt 0 ]`.
`find -mmin -K` matches a file whose age, truncated to whole minutes,
is less than `K`. -/

/-- The filesystem visible to one script invocation: content and age in
seconds (now minus modification time) of each path. -/
structure FS where
  file : String → Option String
  ageSec : String → Nat

/-- `find FILE -mmin -m` matching: whole-minute age below `m`. -/
def findMminMinus (ageSec m : Nat) : Bool := decide (ageSec / 60 < m)

/-- The cache lookup performed by the scripts: the file must exist and
`find -mmin -ttlMin` must match it. -/
def cacheGet (fs : FS) (p : String) (ttlMin : Nat) : Option String :=
  match fs.file p with
  | none => none
  | some c => if findMminMinus (fs.ageSec p) ttlMin then some c else none

/-- `echo "$RESPONSE" > "$CACHE_FILE"`: overwrite the entry, resetting its age. -/
def FS.put (fs : FS) (p : String) (c : String) : FS :=
  ⟨fun q => if q = p then some c else fs.file q,
   fun q => if q = p then 0 else fs.ageSec q⟩

def argocdCacheDir : String := "/workspace/argocd-data/cache/"

/-- `CACHE_FILE` of `argocd_list_applications`. -/
def appsCachePath (key : String) : String := argocdCacheDir ++ "apps_" ++ key ++ ".json"

/-- `CACHE_FILE` of `argocd_get_application`. -/
def appCachePath (key : String) : String := argocdCacheDir ++ "app_" ++ key ++ ".json"

/-- `CACHE_FILE` of `argocd_list_clusters`. -/
def clustersCachePath (key : String) : String := argocdCacheDir ++ "clusters_" ++ key ++ ".json"

/-- `CACHE_FILE` of `argocd_list_repositories`. -/
def reposCachePath (key : String) : String := argocdCacheDir ++ "repos_" ++ key ++ ".json"

/-- `find -mmin -15` in `argocd_list_applications`. -/
def appsTtlMin : Nat := 15

/-- `find -mmin -10` in `argocd_get_application`. -/
def appTtlMin : Nat := 10

/-- `find -mmin -30` in `argocd_list_clusters`. -/
def clustersTtlMin : Nat := 30

/-- `find -mmin -30` in `argocd_list_repositories`. -/
def reposTtlMin : Nat := 30

theorem cacheGet_eq_some (fs : FS) (p : String) (m : Nat) (c : String) :
    cacheGet fs p m = some c ↔ fs.file p = some c ∧ fs.ageSec p < m * 60 := by
  unfold cacheGet findMminMinus
  cases h : fs.file p with
  | none => simp
  | some v =>
    by_cases hage : fs.ageSec p < m * 60
    · have hdiv : fs.ageSec p / 60 < m := (Nat.div_lt_iff_lt_mul (by norm_num)).mpr hage
      simp [hdiv, hage]
    · have hdiv : ¬ fs.ageSec p / 60 < m :=
        fun hc => hage ((Nat.div_lt_iff_lt_mul (by norm_num)).mp hc)
      simp [hdiv, hage]

theorem cacheGet_eq_none (fs : FS) (p : String) (m : Nat) :
    cacheGet fs p m = none ↔ fs.file p = none ∨ m * 60 ≤ fs.ageSec p := by
  unfold cacheGet findMminMinus
  cases h : fs.file p with
  | none => simp
  | some v =>
    by_cases hage : fs.ageSec p < m * 60
    · have hdiv : fs.ageSec p / 60 < m := (Nat.div_lt_iff_lt_mul (by norm_num)).mpr hage
      simp [hdiv]
      omega
    · have hdiv : ¬ fs.ageSec p / 60 < m :=
        fun hc => hage ((Nat.div_lt_iff_lt_mul (by norm_num)).mp hc)
      simp [hdiv]
      omega

/-- C1: cache lookup respects the per-operation TTL. For every key, `get`
returns the cached content exactly when the mapped file exists and its age is
below the TTL, and misses once the age reaches the TTL; the TTLs are 900
seconds for the application list, 600 seconds for single-application detail
and 1800 seconds for clusters and repositories. -/
theorem cacheGet_respects_ttl (fs : FS) (key c : String) :
    (cacheGet fs (appsCachePath key) appsTtlMin = some c ↔
      fs.file (appsCachePath key) = some c ∧ fs.ageSec (appsCachePath key) < 900) ∧
    (cacheGet fs (appsCachePath key) appsTtlMin = none ↔
      fs.file (appsCachePath key) = none ∨ 900 ≤ fs.ageSec (appsCachePath key)) ∧
    (cacheGet fs (appCachePath key) appTtlMin = some c ↔
      fs.file (appCachePath key) = some c ∧ fs.ageSec (appCachePath key) < 600) ∧
    (cacheGet fs (appCachePath key) appTtlMin = none ↔
      fs.file (appCachePath key) = none ∨ 600 ≤ fs.ageSec (appCachePath key)) ∧
    (cacheGet fs (clustersCachePath key) clustersTtlMin = some c ↔
      fs.file (clustersCachePath key) = some c ∧ fs.ageSec (clustersCachePath key) < 1800) ∧
    (cacheGet fs (clustersCachePath key) clustersTtlMin = none ↔
      fs.file (clustersCachePath key) = none ∨ 1800 ≤ fs.ageSec (clustersCachePath key)) ∧
    (cacheGet fs (reposCachePath key) reposTtlMin = some c ↔
      fs.file (reposCachePath key) = some c ∧ fs.ageSec (reposCachePath key) < 1800) ∧
    (cacheGet fs (reposCachePath key) reposTtlMin = none ↔
      fs.file (reposCachePath key) = none ∨ 1800 ≤ fs.ageSec (reposCachePath key)) := by
  refine ⟨?_, ?_, ?_, ?_, ?_, ?_, ?_, ?_⟩
  · simpa [appsTtlMin] using cacheGet_eq_some fs (appsCachePath key) 15 c
  · simpa [appsTtlMin] using cacheGet_eq_none fs (appsCachePath key) 15
  · simpa [appTtlMin] using cacheGet_eq_some fs (appCachePath key) 10 c
  · simpa [appTtlMin] using cacheGet_eq_none fs (appCachePath key) 10
  · simpa [clustersTtlMin] using cacheGet_eq_some fs (clustersCachePath key) 30 c
  · simpa [clustersTtlMin] using cacheGet_eq_none fs (clustersCachePath key) 30
  · simpa [reposTtlMin] using cacheGet_eq_some fs (reposCachePath key) 30 c
  · simpa [reposTtlMin] using cacheGet_eq_none fs (reposCachePath key) 30

/-! ## Fetch-or-cache orchestration

The cache segment of `argocd_list_applications` (cli.py lines 62-97):

  if REFRESH is not "true" and the cache file exists and is fresh, read it;
  otherwise run curl; on non-zero curl exit print an error and `exit 1`;
  on success, if the response is nonempty, write it to the cache file
  (a plain `>` redirection, whose failure does not stop the script). -/

/-- Outcome of the vendor curl call: the captured output, or non-zero exit. -/
inductive FetchResult where
  | ok (data : String)
  | err
deriving DecidableEq

/-- Observable result of the cache segment of one script run. `exitCode` is 1
exactly when the script exited at the fetch-failure check; `response` is the
`RESPONSE` value the rest of the script goes on with; `fetched` records
whether curl was invoked; `storeFailed` records a failed cache-write
redirection (the shell reports it on stderr and continues); `fs` is the
filesystem afterwards. -/
structure RunResult where
  exitCode : Nat
  response : Option String
  fetched : Bool
  storeFailed : Bool
  fs : FS

/-- The fetch-or-cache convention, parameterised by the refresh argument,
cache path, TTL, the curl outcome, and whether the cache write succeeds. -/
def fetchOrCache (fs : FS) (refresh : String) (p : String) (ttlMin : Nat)
    (fetch : FetchResult) (writeOk : Bool) : RunResult :=
  match (if refresh = "true" then none else cacheGet fs p ttlMin) with
  | some c => ⟨0, some c, false, false, fs⟩
  | none =>
    match fetch with
    | .err => ⟨1, none, true, false, fs⟩
    | .ok data =>
      if data = "" then ⟨0, some data, true, false, fs⟩
      else if writeOk then ⟨0, some data, true, false, fs.put p data⟩
      else ⟨0, some data, true, true, fs⟩

theorem cacheGet_put_self (fs : FS) (p c : String) (m : Nat) (hm : 0 < m) :
    cacheGet (fs.put p c) p m = some c := by
  simp [cacheGet, FS.put, findMminMinus, Nat.zero_div, hm]

/-- Amended C3: fetch-or-cache is idempotent within a TTL window. If the
first call (with `refresh` not requested) misses the cache, its fetch
succeeds with nonempty content and the cache write succeeds, then a second
call in immediate succession with the same path and TTL does not invoke the
fetch at all: it is served the stored content from the cache, leaving the
filesystem unchanged — so exactly one underlying fetch happens. -/
theorem fetchOrCache_idempotent (fs : FS) (p : String) (ttlMin : Nat) (data : String)
    (fetch2 : FetchResult) (writeOk2 : Bool)
    (hmiss : cacheGet fs p ttlMin = none) (hne : data ≠ "") (httl : 0 < ttlMin) :
    (fetchOrCache fs "false" p ttlMin (.ok data) true).fetched = true ∧
    (fetchOrCache fs "false" p ttlMin (.ok data) true).fs.file p = some data ∧
    (fetchOrCache (fetchOrCache fs "false" p ttlMin (.ok data) true).fs
        "false" p ttlMin fetch2 writeOk2).fetched = false ∧
    (fetchOrCache (fetchOrCache fs "false" p ttlMin (.ok data) true).fs
        "false" p ttlMin fetch2 writeOk2).response = some data ∧
    (fetchOrCache (fetchOrCache fs "false" p ttlMin (.ok data) true).fs
        "false" p ttlMin fetch2 writeOk2).fs =
      (fetchOrCache fs "false" p ttlMin (.ok data) true).fs := by
  have h1 : fetchOrCache fs "false" p ttlMin (.ok data) true =
      ⟨0, some data, true, false, fs.put p data⟩ := by
    simp [fetchOrCache, hmiss, hne]
  have h2 : fetchOrCache (fs.put p data) "false" p ttlMin fetch2 writeOk2 =
      ⟨0, some data, false, false, fs.put p data⟩ := by
    simp [fetchOrCache, cacheGet_put_self fs p data ttlMin httl]
  rw [h1]
  refine ⟨rfl, by simp [FS.put], ?_, ?_, ?_⟩ <;> simp [h2]

/-- The empty filesystem: no cache files at all. -/
def fsEmpty : FS := ⟨fun _ => none, fun _ => 0⟩

/-- Witness for the amended C3 at a concrete input. -/
theorem fetchOrCache_idempotent_witness :
    (fetchOrCache fsEmpty "false" (appsCachePath "k") appsTtlMin (.ok "X") true).fetched = true ∧
    (fetchOrCache fsEmpty "false" (appsCachePath "k") appsTtlMin
        (.ok "X") true).fs.file (appsCachePath "k") = some "X" ∧
    (fetchOrCache (fetchOrCache fsEmpty "false" (appsCachePath "k") appsTtlMin
          (.ok "X") true).fs "false" (appsCachePath "k") appsTtlMin .err false).fetched = false ∧
    (fetchOrCache (fetchOrCache fsEmpty "false" (appsCachePath "k") appsTtlMin
          (.ok "X") true).fs "false" (appsCachePath "k") appsTtlMin .err false).response =
      some "X" ∧
    (fetchOrCache (fetchOrCache fsEmpty "false" (appsCachePath "k") appsTtlMin
          (.ok "X") true).fs "false" (appsCachePath "k") appsTtlMin .err false).fs =
      (fetchOrCache fsEmpty "false" (appsCachePath "k") appsTtlMin (.ok "X") true).fs :=
  fetchOrCache_idempotent fsEmpty (appsCachePath "k") appsTtlMin "X" .err false
    (by decide) (by decide) (by decide)

/-- Counterexample to C3 as stated: a successful fetch whose captured output
is empty (`curl --fail` exits 0 on an empty body, e.g. HTTP 204) is not
cached, because the store is guarded by `[ -n "$RESPONSE" ]`; the second call
in immediate succession then invokes the fetch again, so two underlying
fetch calls are performed, not exactly one. -/
theorem fetchOrCache_idempotent_counterexample :
    (fetchOrCache fsEmpty "false" (appsCachePath "k") appsTtlMin (.ok "") true).fetched = true ∧
    (fetchOrCache (fetchOrCache fsEmpty "false" (appsCachePath "k") appsTtlMin
          (.ok "") true).fs "false" (appsCachePath "k") appsTtlMin (.ok "") true).fetched =
      true := by
  decide

/-- A filesystem holding one fresh cache entry with content `"old"` at the
applications cache path for key `"k"`. -/
def fsWithOld : FS :=
  ⟨fun q => if q = appsCachePath "k" then some "old" else none, fun _ => 0⟩

/-- Amended C4: force refresh bypasses the cache. With `refresh="true"` the
fetch is always invoked, whatever the cache state; and when the fetch
succeeds with nonempty content and the cache write succeeds, the fetched
content overwrites the entry at the path of the key. -/
theorem fetchOrCache_force_refresh (fs : FS) (p : String) (ttlMin : Nat) :
    (∀ fetch writeOk, (fetchOrCache fs "true" p ttlMin fetch writeOk).fetched = true) ∧
    (∀ data, data ≠ "" →
      (fetchOrCache fs "true" p ttlMin (.ok data) true).fs.file p = some data) := by
  constructor
  · intro fetch writeOk
    cases fetch with
    | err => simp [fetchOrCache]
    | ok data =>
      by_cases hd : data = "" <;> by_cases hw : writeOk <;> simp [fetchOrCache, hd, hw]
  · intro data hne
    simp [fetchOrCache, hne, FS.put]

/-- Witness for the amended C4: despite a fresh `"old"` entry, `refresh="true"`
fetches and the nonempty fetched content replaces the entry. -/
theorem fetchOrCache_force_refresh_witness :
    (fetchOrCache fsWithOld "true" (appsCachePath "k") appsTtlMin (.ok "new") true).fetched =
      true ∧
    (fetchOrCache fsWithOld "true" (appsCachePath "k") appsTtlMin
        (.ok "new") true).fs.file (appsCachePath "k") = some "new" :=
  ⟨(fetchOrCache_force_refresh fsWithOld (appsCachePath "k") appsTtlMin).1 (.ok "new") true,
   (fetchOrCache_force_refresh fsWithOld (appsCachePath "k") appsTtlMin).2 "new" (by decide)⟩

/-- Counterexample to C4 as stated: a successful fetch with an empty body
(curl exit 0, `RESPONSE=""`) does not overwrite the existing cache entry,
because the store is guarded by `[ -n "$RESPONSE" ]` — the old content
survives a force refresh. -/
theorem fetchOrCache_force_refresh_counterexample :
    (fetchOrCache fsWithOld "true" (appsCachePath "k") appsTtlMin (.ok "") true).fetched =
      true ∧
    (fetchOrCache fsWithOld "true" (appsCachePath "k") appsTtlMin
        (.ok "") true).fs.file (appsCachePath "k") = some "old" ∧
    some "old" ≠ some "" := by
  decide

/-- C5: on fetch failure the operation fails and the cache is unchanged.
Whenever the cache is bypassed (`refresh="true"`) or misses, and curl exits
non-zero, the script exits 1, no response is produced (in particular no stale
cache content is served as a fallback), and the filesystem is untouched. -/
theorem fetchOrCache_fetch_failure (fs : FS) (refresh p : String) (ttlMin : Nat)
    (writeOk : Bool)
    (h : refresh = "true" ∨ cacheGet fs p ttlMin = none) :
    fetchOrCache fs refresh p ttlMin .err writeOk = ⟨1, none, true, false, fs⟩ := by
  rcases h with h | h
  · simp [fetchOrCache, h]
  · by_cases hr : refresh = "true" <;> simp [fetchOrCache, hr, h]

/-- Witness for C5 at a concrete input. -/
theorem fetchOrCache_fetch_failure_witness :
    fetchOrCache fsEmpty "false" (appsCachePath "k") appsTtlMin .err true =
      ⟨1, none, true, false, fsEmpty⟩ :=
  fetchOrCache_fetch_failure fsEmpty "false" (appsCachePath "k") appsTtlMin true
    (Or.inr (by decide))

/-- C6: caching is best-effort. If the cache misses, the fetch succeeds with
content to store, and the cache-write redirection fails, the script still
goes on with the freshly fetched data and exit status 0; the filesystem is
unchanged and the failed store is reported (the shell prints the redirection
failure and continues). -/
theorem fetchOrCache_store_failure (fs : FS) (p : String) (ttlMin : Nat) (data : String)
    (hmiss : cacheGet fs p ttlMin = none) (hne : data ≠ "") :
    fetchOrCache fs "false" p ttlMin (.ok data) false = ⟨0, some data, true, true, fs⟩ := by
  simp [fetchOrCache, hmiss, hne]

/-- Witness for C6 at a concrete input. -/
theorem fetchOrCache_store_failure_witness :
    fetchOrCache fsEmpty "false" (appsCachePath "k") appsTtlMin (.ok "X") false =
      ⟨0, some "X", true, true, fsEmpty⟩ :=
  fetchOrCache_store_failure fsEmpty (appsCachePath "k") appsTtlMin "X"
    (by decide) (by decide)

/-! ## The sync-status poll loop of `argocd_sync_application`

cli.py lines 587-618: `for i in $(seq 1 60); do sleep 5; ...` — each
iteration re-fetches the operation status; a failed or empty curl response
breaks with a completion message; phase `"Succeeded"` breaks with success;
phase `"Failed"` or `"Error"` prints the error and exits 1; any other phase
continues to the next iteration. -/

/-- How one poll iteration ended the loop, if it did. -/
inductive PollOutcome where
  | noActiveOp
  | succeeded
  | syncFailed
  | exhausted
deriving DecidableEq

/-- A poll response: `none` models a failed or empty curl status call, and
`some phase` the `jq`-extracted `.operation.sync.phase`. -/
def breaksLoop (r : Option String) : Bool :=
  match r with
  | none => true
  | some phase => phase = "Succeeded" || (phase = "Failed" || phase = "Error")

/-- The poll loop: `i` is the zero-based index of the next iteration and
`fuel` the number of iterations left. Returns how the loop ended together
with the number of iterations performed in total. -/
def pollLoopAux (f : Nat → Option String) : Nat → Nat → PollOutcome × Nat
  | i, 0 => (.exhausted, i)
  | i, fuel + 1 =>
    match f i with
    | none => (.noActiveOp, i + 1)
    | some phase =>
      if phase = "Succeeded" then (.succeeded, i + 1)
      else if phase = "Failed" || phase = "Error" then (.syncFailed, i + 1)
      else pollLoopAux f (i + 1) fuel

/-- `seq 1 60`: the fixed iteration bound. -/
def argocdSyncPollMaxAttempts : Nat := 60

/-- `sleep 5`: the fixed per-iteration sleep, in seconds. -/
def argocdSyncPollSleepSec : Nat := 5

/-- The whole wait-for-completion poll of `argocd_sync_application`. -/
def syncPoll (f : Nat → Option String) : PollOutcome × Nat :=
  pollLoopAux f 0 argocdSyncPollMaxAttempts

/-- The exit code the script takes after the loop: only the
`"Failed"`/`"Error"` branch runs `exit 1`. -/
def syncPollExit : PollOutcome → Nat
  | .syncFailed => 1
  | _ => 0

theorem pollLoopAux_spec (f : Nat → Option String) :
    ∀ fuel i,
      i ≤ (pollLoopAux f i fuel).2 ∧
      (pollLoopAux f i fuel).2 ≤ i + fuel ∧
      (∀ j, i ≤ j → j + 1 < (pollLoopAux f i fuel).2 → breaksLoop (f j) = false) ∧
      ((pollLoopAux f i fuel).1 = .succeeded →
        f ((pollLoopAux f i fuel).2 - 1) = some "Succeeded") ∧
      ((pollLoopAux f i fuel).1 = .syncFailed →
        f ((pollLoopAux f i fuel).2 - 1) = some "Failed" ∨
        f ((pollLoopAux f i fuel).2 - 1) = some "Error") ∧
      ((pollLoopAux f i fuel).1 = .noActiveOp → f ((pollLoopAux f i fuel).2 - 1) = none) := by
  intro fuel
  induction fuel with
  | zero =>
    intro i
    refine ⟨le_refl i, by simp [pollLoopAux], ?_, ?_, ?_, ?_⟩
    · intro j hij hj
      have hj2 : j + 1 < i := hj
      omega
    all_goals simp [pollLoopAux]
  | succ fuel ih =>
    intro i
    cases hf : f i with
    | none =>
      have heq : pollLoopAux f i (fuel + 1) = (.noActiveOp, i + 1) := by
        simp [pollLoopAux, hf]
      rw [heq]
      refine ⟨by show i ≤ i + 1; omega, by show i + 1 ≤ i + (fuel + 1); omega,
        ?_, by simp, by simp, ?_⟩
      · intro j hij hj
        have hj2 : j + 1 < i + 1 := hj
        omega
      · intro _
        exact hf
    | some phase =>
      by_cases hs : phase = "Succeeded"
      · have heq : pollLoopAux f i (fuel + 1) = (.succeeded, i + 1) := by
          simp [pollLoopAux, hf, hs]
        rw [heq]
        refine ⟨by show i ≤ i + 1; omega, by show i + 1 ≤ i + (fuel + 1); omega,
          ?_, ?_, by simp, by simp⟩
        · intro j hij hj
          have hj2 : j + 1 < i + 1 := hj
          omega
        · intro _
          exact hf.trans (by rw [hs])
      · by_cases hfe : phase = "Failed" || phase = "Error"
        · have heq : pollLoopAux f i (fuel + 1) = (.syncFailed, i + 1) := by
            simp [pollLoopAux, hf, hs, hfe]
          rw [heq]
          refine ⟨by show i ≤ i + 1; omega, by show i + 1 ≤ i + (fuel + 1); omega,
            ?_, by simp, ?_, by simp⟩
          · intro j hij hj
            have hj2 : j + 1 < i + 1 := hj
            omega
          · intro _
            have hor : phase = "Failed" ∨ phase = "Error" := by simpa using hfe
            rcases hor with h | h
            · exact Or.inl (hf.trans (by rw [h]))
            · exact Or.inr (hf.trans (by rw [h]))
        · have hs2 : decide (phase = "Succeeded") = false := decide_eq_false hs
          have hfe2 : (decide (phase = "Failed") || decide (phase = "Error")) = false :=
            Bool.eq_false_iff.mpr hfe
          have heq : pollLoopAux f i (fuel + 1) = pollLoopAux f (i + 1) fuel := by
            simp [pollLoopAux, hf, hs, hfe]
          obtain ⟨ha, hb, hc, hd, he, hg⟩ := ih (i + 1)
          rw [heq]
          refine ⟨by omega, by omega, ?_, hd, he, hg⟩
          intro j hij hj
          rcases Nat.eq_or_lt_of_le hij with h | h
          · subst h
            rw [hf]
            show (decide (phase = "Succeeded") ||
              (decide (phase = "Failed") || decide (phase = "Error"))) = false
            rw [hs2, hfe2]
            rfl
          · exact hc j h hj

/-- C8: the sync-status poll always terminates within its fixed bound of 60
iterations of a fixed 5-second sleep, and stops early at the first terminal
response: every iteration except possibly the last saw a non-terminal phase,
an ending phase `"Succeeded"` breaks with exit 0, and an ending phase
`"Failed"` or `"Error"` exits 1. -/
theorem syncPoll_bounded_terminates (f : Nat → Option String) :
    (syncPoll f).2 ≤ argocdSyncPollMaxAttempts ∧
    argocdSyncPollSleepSec * (syncPoll f).2 ≤ 300 ∧
    (∀ j, j + 1 < (syncPoll f).2 → breaksLoop (f j) = false) ∧
    ((syncPoll f).1 = .succeeded →
      f ((syncPoll f).2 - 1) = some "Succeeded" ∧ syncPollExit (syncPoll f).1 = 0) ∧
    ((syncPoll f).1 = .syncFailed →
      (f ((syncPoll f).2 - 1) = some "Failed" ∨ f ((syncPoll f).2 - 1) = some "Error") ∧
      syncPollExit (syncPoll f).1 = 1) := by
  obtain ⟨ha, hb, hc, hd, he, hg⟩ := pollLoopAux_spec f argocdSyncPollMaxAttempts 0
  refine ⟨by simpa [syncPoll] using hb, ?_, ?_, ?_, ?_⟩
  · have : (syncPoll f).2 ≤ 60 := by simpa [syncPoll] using hb
    simp [argocdSyncPollSleepSec]
    omega
  · intro j hj
    exact hc j (Nat.zero_le j) hj
  · intro h
    exact ⟨hd h, by simp [syncPollExit, h]⟩
  · intro h
    exact ⟨he h, by simp [syncPollExit, h]⟩

/-- A poll stream whose first status already reports phase `"Failed"`. -/
def pollAllFailed : Nat → Option String := fun _ => some "Failed"

/-- Witness for C8: on a stream that reports `"Failed"` immediately, the loop
stops after one iteration and the script exits 1. -/
theorem syncPoll_bounded_terminates_witness :
    (syncPoll pollAllFailed).2 ≤ argocdSyncPollMaxAttempts ∧
    ((pollAllFailed ((syncPoll pollAllFailed).2 - 1) = some "Failed" ∨
      pollAllFailed ((syncPoll pollAllFailed).2 - 1) = some "Error") ∧
      syncPollExit (syncPoll pollAllFailed).1 = 1) :=
  ⟨(syncPoll_bounded_terminates pollAllFailed).1,
   (syncPoll_bounded_terminates pollAllFailed).2.2.2.2 (by decide)⟩

/-! ## Workspace-manager cleanup

ArgoCD (cli.py lines 811-822):
`find /workspace/argocd-data/cache -name "*.json" -type f -mmin +1440 -delete`.
Observe (observe cli.py lines 967-986):
`find /workspace/observe-data/cache -name "*.json" -type f -mtime +7 -delete`.
`find -mmin +n` matches a file whose age in whole minutes is strictly greater
than `n`; `find -mtime +n` matches one whose age in whole 24-hour days is
strictly greater than `n`. -/

/-- A cache-directory entry: base name and age in whole minutes. -/
structure WFile where
  name : String
  ageMin : Nat
deriving DecidableEq

/-- `find -mmin +n` matching. -/
def findMminPlus (f : WFile) (n : Nat) : Bool := decide (n < f.ageMin)

/-- `find -mtime +n` matching: the age is first truncated to whole days. -/
def findMtimePlus (f : WFile) (n : Nat) : Bool := decide (n < f.ageMin / 1440)

/-- The `-name "*.json"` glob: the name ends with `.json`. -/
def isJsonName (s : String) : Bool := ".json".data.isSuffixOf s.data

/-- `find ... -delete -print`: traverse the directory, deleting every entry
the predicate matches. Returns (remaining entries, deleted entries). -/
def findDelete (p : WFile → Bool) : List WFile → List WFile × List WFile
  | [] => ([], [])
  | f :: rest =>
    let r := findDelete p rest
    if p f then (r.1, f :: r.2) else (f :: r.1, r.2)

/-- The match run by the ArgoCD `cleanup` action. -/
def argocdCleanupMatch (f : WFile) : Bool := isJsonName f.name && findMminPlus f 1440

/-- The match run by the Observe `cleanup` action. -/
def observeCleanupMatch (f : WFile) : Bool := isJsonName f.name && findMtimePlus f 7

/-- The ArgoCD workspace-manager `cleanup` action on the cache directory. -/
def argocdCleanup (files : List WFile) : List WFile × List WFile :=
  findDelete argocdCleanupMatch files

/-- The Observe workspace-manager `cleanup` action on the cache directory. -/
def observeCleanup (files : List WFile) : List WFile × List WFile :=
  findDelete observeCleanupMatch files

theorem findDelete_eq (p : WFile → Bool) (files : List WFile) :
    findDelete p files = (files.filter (fun f => !p f), files.filter p) := by
  induction files with
  | nil => rfl
  | cons f rest ih =>
    by_cases hp : p f <;> simp [findDelete, ih, List.filter, hp]

/-- Counterexample to C9 as stated: a `.json` cache file of age 10081 minutes
(7 days and 1 minute — its age exceeds the 7-day threshold) is NOT deleted
by the Observe cleanup, because `find -mtime +7` truncates the age to whole
days (10081 / 1440 = 7, not greater than 7). -/
theorem observeCleanup_counterexample :
    7 * 1440 < 10081 ∧
    isJsonName "query_abc.json" = true ∧
    observeCleanup [⟨"query_abc.json", 10081⟩] = ([⟨"query_abc.json", 10081⟩], []) := by
  refine ⟨by norm_num, by decide, ?_⟩
  decide

/-- Amended C9: cleanup deletes exactly the `.json` files that `find`
considers older than the fixed age, and leaves everything else unchanged.
For ArgoCD that is an age of more than 1440 whole minutes (24 hours); for
Observe it is an age of at least 8 whole days (11520 minutes) — `find
-mtime +7` truncates ages to whole days, so files between 7 and 8 days old
survive. The deletion predicate depends only on the name and age of each
file: there is no size-bounded or LRU eviction. -/
theorem cleanup_deletes_exactly_old (files : List WFile) :
    argocdCleanup files =
      (files.filter (fun f => !(isJsonName f.name && decide (1440 < f.ageMin))),
       files.filter (fun f => isJsonName f.name && decide (1440 < f.ageMin))) ∧
    observeCleanup files =
      (files.filter (fun f => !(isJsonName f.name && decide (11520 ≤ f.ageMin))),
       files.filter (fun f => isJsonName f.name && decide (11520 ≤ f.ageMin))) := by
  have hobs : ∀ f : WFile, observeCleanupMatch f =
      (isJsonName f.name && decide (11520 ≤ f.ageMin)) := by
    intro f
    unfold observeCleanupMatch findMtimePlus
    congr 1
    rw [decide_eq_decide]
    omega
  have harg : ∀ f : WFile, argocdCleanupMatch f =
      (isJsonName f.name && decide (1440 < f.ageMin)) := by
    intro f
    rfl
  constructor
  · rw [argocdCleanup, findDelete_eq]
    rw [List.filter_congr (fun f _ => harg f),
      List.filter_congr (fun f _ => congrArg Bool.not (harg f))]
  · rw [observeCleanup, findDelete_eq]
    rw [List.filter_congr (fun f _ => hobs f),
      List.filter_congr (fun f _ => congrArg Bool.not (hobs f))]

/-! ## Tool argument validation (base.py, identical across the tool packages)

```
def validate_args(self, args):
    required_args = [arg.name for arg in self.args if arg.required]
    return all(arg in args and args[arg] for arg in required_args)

def get_error_message(self, args):
    missing_args = []
    for arg in self.args:
        if arg.required and (arg.name not in args or not args[arg.name]):
            missing_args.append(arg.name)
    if missing_args:
        return the message naming the comma-joined missing_args
    return None
```
-/

/-- A declared tool argument: name and required flag (base.py `Arg`). -/
structure ToolArg where
  name : String
  required : Bool
deriving DecidableEq

/-- A Python value, abstracted to its truthiness. -/
structure PyVal where
  truthy : Bool
deriving DecidableEq

/-- The `args` dictionary passed to validation. -/
def PyDict : Type := List (String × PyVal)

/-- Dictionary lookup (`args[name]`, first binding wins). -/
def lookupArg : PyDict → String → Option PyVal
  | [], _ => none
  | (k, v) :: rest, key => if k = key then some v else lookupArg rest key

/-- `name in args and args[name]`: present and truthy. -/
def argTruthy (d : PyDict) (name : String) : Bool :=
  match lookupArg d name with
  | some v => v.truthy
  | none => false

/-- `validate_args`: every required argument is present and truthy. -/
def validateArgs (tool : List ToolArg) (d : PyDict) : Bool :=
  ((tool.filter (fun a => a.required)).map (fun a => a.name)).all (fun n => argTruthy d n)

/-- The `missing_args` list accumulated by `get_error_message`. -/
def missingArgs : List ToolArg → PyDict → List String
  | [], _ => []
  | a :: rest, d =>
    if a.required && !argTruthy d a.name then a.name :: missingArgs rest d
    else missingArgs rest d

/-- `get_error_message`: `None` when nothing is missing, otherwise the
message listing the missing required argument names. -/
def getErrorMessage (tool : List ToolArg) (d : PyDict) : Option String :=
  if (missingArgs tool d).isEmpty then none
  else some ("Missing required arguments: " ++ String.intercalate ", " (missingArgs tool d))

theorem validateArgs_iff_missingArgs_nil (tool : List ToolArg) (d : PyDict) :
    validateArgs tool d = true ↔ missingArgs tool d = [] := by
  induction tool with
  | nil => simp [validateArgs, missingArgs]
  | cons a rest ih =>
    by_cases hr : a.required
    · by_cases ht : argTruthy d a.name
      · simp [validateArgs, missingArgs, hr, ht] at ih ⊢
        exact ih
      · simp [validateArgs, missingArgs, hr, ht]
    · simp [validateArgs, missingArgs, hr] at ih ⊢
      exact ih

theorem missingArgs_eq_filter (tool : List ToolArg) (d : PyDict) :
    missingArgs tool d =
      (tool.filter (fun a => a.required && !argTruthy d a.name)).map (fun a => a.name) := by
  induction tool with
  | nil => rfl
  | cons a rest ih =>
    by_cases h : a.required && !argTruthy d a.name <;>
      simp [missingArgs, List.filter, h, ih]

/-- C10: `validate_args` and `get_error_message` agree. For every tool
argument list and argument dictionary, `validate_args` returns true exactly
when `get_error_message` returns `None`, and otherwise the message lists
precisely the required arguments that are absent or falsy, in declaration
order. -/
theorem validateArgs_agrees_getErrorMessage (tool : List ToolArg) (d : PyDict) :
    (validateArgs tool d = true ↔ getErrorMessage tool d = none) ∧
    missingArgs tool d =
      (tool.filter (fun a => a.required && !argTruthy d a.name)).map (fun a => a.name) ∧
    getErrorMessage tool d =
      (if missingArgs tool d = [] then none
       else some ("Missing required arguments: " ++
         String.intercalate ", " (missingArgs tool d))) := by
  refine ⟨?_, missingArgs_eq_filter tool d, ?_⟩
  · rw [validateArgs_iff_missingArgs_nil]
    unfold getErrorMessage
    by_cases h : missingArgs tool d = [] <;> simp [h]
  · unfold getErrorMessage
    by_cases h : missingArgs tool d = [] <;> simp [h]

/-! ## Sensitivity of the cache key to parameter values

The pre-hash string joins the parameter values with underscores and nothing
escapes an underscore occurring inside a value, so two different parameter
tuples can produce the identical pre-hash string — and hence the identical
md5 key. When no parameter value contains an underscore, the join is
injective and any parameter change changes the pre-hash string. -/

/-- An environment whose `project_filter` itself contains an underscore. -/
def envUnderscoreA : Env := fun n =>
  if n = "project_filter" then some "a_b" else none

/-- A different environment: `project_filter` is `"a"` and `health_filter`
is `"b_"`. -/
def envUnderscoreB : Env := fun n =>
  if n = "project_filter" then some "a"
  else if n = "health_filter" then some "b_" else none

/-- Counterexample to C7 as stated: the two environments differ in
`project_filter` (`"a_b"` versus `"a"`), the operation name and time bucket
agree, yet the derived cache keys are identical, because the underscore-joined
pre-hash strings coincide (`apps_50_0_a_b___2024060112` both ways) — no md5
collision is involved. -/
theorem listAppsCacheKey_sensitivity_counterexample :
    shVar envUnderscoreA "project_filter" ≠ shVar envUnderscoreB "project_filter" ∧
    listAppsCacheKey envUnderscoreA "2024060112" = listAppsCacheKey envUnderscoreB "2024060112" := by
  constructor
  · decide
  · unfold listAppsCacheKey
    exact congrArg echoMd5 (by decide)

theorem underscore_join_head (x : List Char) : ∀ (y u v : List Char),
    '_' ∉ x → '_' ∉ y → x ++ '_' :: u = y ++ '_' :: v → x = y ∧ u = v := by
  induction x with
  | nil =>
    intro y u v hx hy h
    cases y with
    | nil =>
      refine ⟨rfl, ?_⟩
      simpa using h
    | cons c y2 =>
      simp only [List.nil_append, List.cons_append, List.cons.injEq] at h
      have hne : '_' ≠ c := fun hc => hy (by rw [hc]; exact List.mem_cons_self c y2)
      exact absurd h.1 hne
  | cons a x2 ih =>
    intro y u v hx hy h
    cases y with
    | nil =>
      simp only [List.cons_append, List.nil_append, List.cons.injEq] at h
      have hne : a ≠ '_' := fun hc => hx (by rw [← hc]; exact List.mem_cons_self a x2)
      exact absurd h.1 hne
    | cons c y2 =>
      simp only [List.cons_append, List.cons.injEq] at h
      have hx2 : '_' ∉ x2 := fun hm => hx (List.mem_cons_of_mem _ hm)
      have hy2 : '_' ∉ y2 := fun hm => hy (List.mem_cons_of_mem _ hm)
      obtain ⟨hxy, huv⟩ := ih y2 u v hx2 hy2 h.2
      exact ⟨by rw [h.1, hxy], huv⟩

/-- Amended C7: key sensitivity holds for underscore-free parameter values.
For two calls with the same operation name and time bucket whose parameter
values contain no underscore, if any parameter value differs then the
underscore-joined pre-hash strings differ — so the md5 keys differ up to
hash collision. (Values containing underscores can collide exactly, as the
counterexample shows, because the join does not escape its separator.) -/
theorem appsPreHash_sensitive (l1 o1 p1 h1 s1 l2 o2 p2 h2 s2 b : String)
    (hl1 : '_' ∉ l1.data) (ho1 : '_' ∉ o1.data) (hp1 : '_' ∉ p1.data)
    (hh1 : '_' ∉ h1.data) (hs1 : '_' ∉ s1.data)
    (hl2 : '_' ∉ l2.data) (ho2 : '_' ∉ o2.data) (hp2 : '_' ∉ p2.data)
    (hh2 : '_' ∉ h2.data) (hs2 : '_' ∉ s2.data)
    (hdiff : ¬(l1 = l2 ∧ o1 = o2 ∧ p1 = p2 ∧ h1 = h2 ∧ s1 = s2)) :
    appsPreHash l1 o1 p1 h1 s1 b ≠ appsPreHash l2 o2 p2 h2 s2 b := by
  intro hEq
  apply hdiff
  have hd := congrArg String.data hEq
  have hus : ("_" : String).data = ['_'] := rfl
  simp only [appsPreHash, String.data_append, hus, List.append_assoc,
    List.singleton_append] at hd
  have hd2 := List.append_cancel_left hd
  obtain ⟨e1, hd3⟩ := underscore_join_head _ _ _ _ hl1 hl2 hd2
  obtain ⟨e2, hd4⟩ := underscore_join_head _ _ _ _ ho1 ho2 hd3
  obtain ⟨e3, hd5⟩ := underscore_join_head _ _ _ _ hp1 hp2 hd4
  obtain ⟨e4, hd6⟩ := underscore_join_head _ _ _ _ hh1 hh2 hd5
  obtain ⟨e5, _⟩ := underscore_join_head _ _ _ _ hs1 hs2 hd6
  exact ⟨String.ext e1, String.ext e2, String.ext e3, String.ext e4, String.ext e5⟩

/-- Witness for the amended C7: changing `project_filter` from empty to
`"prod"` (no underscores anywhere) changes the pre-hash string. -/
theorem appsPreHash_sensitive_witness :
    appsPreHash "50" "0" "prod" "" "" "2024060112" ≠
      appsPreHash "50" "0" "" "" "" "2024060112" :=
  appsPreHash_sensitive "50" "0" "prod" "" "" "50" "0" "" "" "" "2024060112"
    (by decide) (by decide) (by decide) (by decide) (by decide)
    (by decide) (by decide) (by decide) (by decide) (by decide) (by decide)

end CliTools
